import Mathlib

/-
Verification of the adaptive math-drill engine of the pwa-next-template
repository.  The definitions below are a shallow embedding of
`native/src/lib/math.ts` and of the submission path in
`src/features/training/providers/mathTrainingProvider.ts` /
`src/features/training/useTrainingSession.ts`.

Modelling conventions:
 * JS numbers holding integer quantities (levels, streaks, operands) are
   embedded as `Nat` (all values occurring in the program are nonnegative;
   the one place where JS arithmetic can go below zero before a clamp,
   `clamp(level - 1, 1, max)` and `clamp(level - 1, 0, len - 1)`, gives the
   same result under truncated `Nat` subtraction because of the clamp floor).
 * JS numbers holding elapsed milliseconds or accuracies are embedded as
   `Rat`, so that the divisions in `getAccuracy` / `getAverageMs` are exact.
 * `getTargetMs` computes in `Int` because `6000 - level*300` is negative
   for large levels before the clamp is applied.
 * Impure inputs (the `randomInt` draws of `generateQuestion`, the nonce
   `id`, the elapsed time measured at submit) are passed as explicit
   parameters.
 * The JS `Record<SkillKey, SkillStats>` is embedded as a function
   `SkillKey → SkillStats`; the spread-update `{...stats, [skill]: ...}`
   becomes the pointwise if-then-else update.
-/

namespace MathDrill

/-- The four skills of `math.ts` (`type SkillKey`). -/
inductive SkillKey where
  | add
  | sub
  | mul
  | div
deriving DecidableEq, Repr

/-- A single answer record (`interface Result`): correctness flag and
elapsed milliseconds. -/
structure Result where
  correct : Bool
  ms : ℚ
deriving DecidableEq, Repr

/-- Per-skill statistics (`interface SkillStats`). -/
structure SkillStats where
  level : ℕ
  streak : ℕ
  mistakeStreak : ℕ
  history : List Result
deriving DecidableEq, Repr

/-- `type Stats = Record<SkillKey, SkillStats>`, embedded as a function. -/
def Stats : Type := SkillKey → SkillStats

/-- `interface LevelSpec` with its optional fields. -/
structure LevelSpec where
  minA : Option ℕ := none
  maxA : ℕ
  minB : Option ℕ := none
  maxB : ℕ
  allowNegative : Option Bool := none
deriving DecidableEq, Repr

/-- `const MAX_HISTORY = 12`. -/
def MAX_HISTORY : ℕ := 12

/-- `export const MAX_LEVEL = 50`. -/
def MAX_LEVEL : ℕ := 50

/-- Tail extension loop of `buildLinearLevels`: push `n` further specs,
each time adding `step` to the running maximum. -/
def extendLinear : ℕ → ℕ → ℕ → List LevelSpec
  | 0, _, _ => []
  | n + 1, current, step =>
      let c := current + step
      { maxA := c, maxB := c } :: extendLinear n c step

/-- `buildLinearLevels(base, step)`: take at most `MAX_LEVEL` base maxima,
then extend linearly up to `MAX_LEVEL` entries. -/
def buildLinearLevels (base : List ℕ) (step : ℕ) : List LevelSpec :=
  let levels := (base.take MAX_LEVEL).map (fun mx => { maxA := mx, maxB := mx })
  match levels.getLast? with
  | none => levels
  | some last => levels ++ extendLinear (MAX_LEVEL - levels.length) last.maxA step

/-- Tail extension loop of `buildDivLevels`: `n` iterations remaining,
`added` is the 1-based count of pushed entries, with running
`maxA`, `maxB`, `minA`. -/
def extendDiv : ℕ → ℕ → ℕ → ℕ → ℕ → List LevelSpec
  | 0, _, _, _, _ => []
  | n + 1, added, maxA, maxB, minA =>
      let maxA2 := maxA + 5
      let maxB2 := maxB + 4
      let minA2 := if added % 5 = 0 then minA + 1 else minA
      { minA := some minA2, maxA := maxA2, minB := some 0, maxB := maxB2 }
        :: extendDiv n (added + 1) maxA2 maxB2 minA2

/-- `buildDivLevels(base)`: take at most `MAX_LEVEL` base specs, then extend
with the +5/+4 growth and the every-5th `minA` bump. -/
def buildDivLevels (base : List LevelSpec) : List LevelSpec :=
  let levels := base.take MAX_LEVEL
  match levels.getLast? with
  | none => levels
  | some last =>
      levels ++ extendDiv (MAX_LEVEL - levels.length) 1 last.maxA last.maxB
        (last.minA.getD 1)

/-- `const BASE_ADD_LEVELS`. -/
def BASE_ADD_LEVELS : List ℕ :=
  [10, 20, 30, 50, 75, 100, 150, 250, 500, 1000, 1500, 2000]

/-- `const BASE_MUL_LEVELS`. -/
def BASE_MUL_LEVELS : List ℕ :=
  [5, 9, 12, 15, 20, 25, 30, 40, 50, 60, 75, 90]

/-- `const BASE_DIV_LEVELS`. -/
def BASE_DIV_LEVELS : List LevelSpec :=
  [ { minA := some 1, maxA := 5, minB := some 0, maxB := 5 },
    { minA := some 1, maxA := 9, minB := some 0, maxB := 9 },
    { minA := some 1, maxA := 12, minB := some 0, maxB := 12 },
    { minA := some 2, maxA := 15, minB := some 0, maxB := 12 },
    { minA := some 2, maxA := 20, minB := some 0, maxB := 15 },
    { minA := some 2, maxA := 25, minB := some 0, maxB := 20 },
    { minA := some 3, maxA := 30, minB := some 0, maxB := 25 },
    { minA := some 3, maxA := 40, minB := some 0, maxB := 30 },
    { minA := some 4, maxA := 50, minB := some 0, maxB := 40 },
    { minA := some 5, maxA := 60, minB := some 0, maxB := 50 },
    { minA := some 6, maxA := 75, minB := some 0, maxB := 60 },
    { minA := some 8, maxA := 90, minB := some 0, maxB := 70 } ]

/-- `const LEVELS: Record<SkillKey, LevelSpec[]>`. -/
def LEVELS : SkillKey → List LevelSpec
  | .add => buildLinearLevels BASE_ADD_LEVELS 250
  | .sub => buildLinearLevels BASE_ADD_LEVELS 250
  | .mul => buildLinearLevels BASE_MUL_LEVELS 5
  | .div => buildDivLevels BASE_DIV_LEVELS

/-- `const SKILL_LIST: SkillKey[] = ["add", "sub", "mul", "div"]`. -/
def SKILL_LIST : List SkillKey := [.add, .sub, .mul, .div]

/-- A generated question (`interface Question`); the answer is an `Int`
because subtraction may go negative when negatives are allowed. -/
structure Question where
  id : String
  text : String
  answer : ℤ
  skill : SkillKey
  level : ℕ
deriving DecidableEq, Repr

/-- `clamp(value, min, max)` on integers. -/
def clampZ (value lo hi : ℤ) : ℤ := min (max value lo) hi

/-- `clamp(value, min, max)` on naturals. -/
def clampNat (value lo hi : ℕ) : ℕ := min (max value lo) hi

/-- `getLevelSpec(skill, level)`: index `clamp(level - 1, 0, specs.length - 1)`
into the level table (under `Nat` subtraction, `level - 1` is already
clamped below at 0). -/
def getLevelSpec (skill : SkillKey) (level : ℕ) : LevelSpec :=
  let specs := LEVELS skill
  specs.getD (clampNat (level - 1) 0 (specs.length - 1)) { maxA := 0, maxB := 0 }

/-- `createDefaultStats()`. -/
def createDefaultStats : Stats := fun skill =>
  match skill with
  | .add => { level := 1, streak := 0, mistakeStreak := 0, history := [] }
  | .sub => { level := 1, streak := 0, mistakeStreak := 0, history := [] }
  | .mul => { level := 1, streak := 0, mistakeStreak := 0, history := [] }
  | .div => { level := 1, streak := 0, mistakeStreak := 0, history := [] }

/-- `accuracyFromHistory(history)`: 0 on empty history, otherwise the
`reduce`-computed number of correct entries divided by the length. -/
def accuracyFromHistory (history : List Result) : ℚ :=
  if history.length = 0 then 0
  else
    (history.foldl (fun total item => total + (if item.correct then 1 else 0)) 0)
      / (history.length : ℚ)

/-- `getAccuracy(stats)`. -/
def getAccuracy (stats : SkillStats) : ℚ := accuracyFromHistory stats.history

/-- `getAverageMs(stats)`: 0 on empty history, otherwise the `reduce`-computed
sum of elapsed times divided by the length. -/
def getAverageMs (stats : SkillStats) : ℚ :=
  if stats.history.length = 0 then 0
  else (stats.history.foldl (fun sum item => sum + item.ms) 0)
    / (stats.history.length : ℚ)

/-- `getTargetMs(level) = clamp(6000 - level*300, 2400, 6000)`, computed in
`Int` since the un-clamped value goes negative for large levels. -/
def getTargetMs (level : ℕ) : ℤ :=
  let base : ℤ := 6000
  let drop : ℤ := 300
  clampZ (base - (level : ℤ) * drop) 2400 6000

/-- The per-skill score used by `getWeakestSkill` (and `pickSkill`): the
history accuracy, or the neutral prior 0.55 on an empty history. -/
def skillScore (stats : Stats) (skill : SkillKey) : ℚ :=
  if (stats skill).history.length = 0 then 0.55
  else accuracyFromHistory (stats skill).history

/-- `getWeakestSkill(stats)`: fold of the mutating `forEach` in the source,
starting from `weakest = SKILL_LIST[0]` and `weakestScore = 1`, replacing the
pair whenever a strictly smaller score appears. -/
def getWeakestSkill (stats : Stats) : SkillKey :=
  (SKILL_LIST.foldl
    (fun acc skill =>
      if skillScore stats skill < acc.2 then (skill, skillScore stats skill) else acc)
    ((SkillKey.add, 1) : SkillKey × ℚ)).1

/-- `updateStats(stats, skill, correct, ms)`.  The two sequential `if`
statements of the source are embedded as successive lets; `leveledUp` and
`leveledDown` are exactly the source's flags (set only when the clamped new
level differs from the current one). -/
def updateStats (stats : Stats) (skill : SkillKey) (correct : Bool) (ms : ℚ) :
    Stats :=
  let current := stats skill
  let appended := current.history ++ [({ correct := correct, ms := ms } : Result)]
  let nextHistory := appended.drop (appended.length - MAX_HISTORY)
  let nextStreak := if correct then current.streak + 1 else 0
  let nextMistakeStreak := if correct then 0 else current.mistakeStreak + 1
  let levelMax := (LEVELS skill).length
  let promoting : Bool :=
    correct && decide (3 ≤ nextStreak)
      && decide (ms ≤ ((getTargetMs current.level : ℤ) : ℚ))
  let nextLevelA := if promoting then clampNat (current.level + 1) 1 levelMax
    else current.level
  let leveledUp : Bool := promoting && decide (nextLevelA ≠ current.level)
  let demoting : Bool := !correct && decide (2 ≤ nextMistakeStreak)
  let nextLevel := if demoting then clampNat (current.level - 1) 1 levelMax
    else nextLevelA
  let leveledDown : Bool := demoting && decide (nextLevel ≠ current.level)
  fun k =>
    if k = skill then
      { current with
        level := nextLevel
        streak := if correct && !leveledUp then nextStreak else 0
        mistakeStreak := if !correct && !leveledDown then nextMistakeStreak else 0
        history := nextHistory }
    else stats k

/-- `generateQuestion(skill, level, options)`.  The two `randomInt` draws
`a`, `b` and the impure nonce `id` are explicit parameters; `options`
becomes the flattened `Option Bool` for `allowNegative`. -/
def generateQuestion (skill : SkillKey) (level : ℕ) (options : Option Bool)
    (a b : ℕ) (id : String) : Question :=
  let spec := getLevelSpec skill level
  match skill with
  | .add =>
      { id := id, text := s!"{a} + {b}", answer := (a : ℤ) + b,
        skill := skill, level := level }
  | .sub =>
      let allowNegative := (options.orElse (fun _ => spec.allowNegative)).getD false
      let high := if allowNegative then a else max a b
      let low := if allowNegative then b else min a b
      { id := id, text := s!"{high} - {low}", answer := (high : ℤ) - low,
        skill := skill, level := level }
  | .mul =>
      { id := id, text := s!"{a} x {b}", answer := (a : ℤ) * b,
        skill := skill, level := level }
  | .div =>
      let divisor := max 1 a
      let quotient := b
      let dividend := divisor * quotient
      { id := id, text := s!"{dividend} / {divisor}", answer := (quotient : ℤ),
        skill := skill, level := level }

/-! ## Provider and session layer
Embedding of the submission path: `sanitizeNumericInput` / `parseNumericInput`
from `mathTrainingProvider.ts` and `handleSubmit` / `applyResult` from
`useTrainingSession.ts`. -/

/-- The math provider settings (`type MathSettings`). -/
structure MathSettings where
  questionCount : ℕ
  timeLimitSeconds : ℕ
  negativeLevel : ℕ
deriving DecidableEq, Repr

/-- `allowNegativeAnswer(question, settings)` from the math provider. -/
def allowNegativeAnswer (question : Question) (settings : MathSettings) : Bool :=
  question.skill == SkillKey.sub && decide (0 < settings.negativeLevel)
    && decide (settings.negativeLevel ≤ question.level)

/-- `sanitizeNumericInput(raw, allowNegative)`: keep only `[0-9-]`; with
negatives disallowed strip every minus; with negatives allowed strip every
minus except one in leading position (the source regex matches each minus
that is not at the start of the string). -/
def sanitizeNumericInput (raw : String) (allowNegative : Bool) : String :=
  let cleaned := raw.toList.filter (fun c => c.isDigit || c == '-')
  let cleaned2 :=
    if !allowNegative then cleaned.filter (fun c => c ≠ '-')
    else if cleaned.contains '-' then
      match cleaned with
      | [] => []
      | c :: rest => c :: rest.filter (fun ch => ch ≠ '-')
    else cleaned
  String.mk cleaned2

/-- The three reportable input failure modes of `AnswerParseResult`. -/
inductive ParseErrorKind where
  | empty
  | incomplete
  | invalid
deriving DecidableEq, Repr

/-- `AnswerParseResult<number>`: either a reported error or a parsed value. -/
inductive AnswerParse where
  | err (e : ParseErrorKind)
  | ok (value : ℤ)
deriving DecidableEq, Repr

/-- Decimal value of a digit string, as computed by JS `Number` on an
all-digit string. -/
def jsIntOfDigits (cs : List Char) : ℤ :=
  cs.foldl (fun n c => 10 * n + ((c.toNat - 48 : ℕ) : ℤ)) 0

/-- Model of the JS builtin `Number(value)` restricted to the strings
`parseNumericInput` can receive from `sanitizeNumericInput` (digits with at
most one leading minus): an all-digit string or a minus followed by a
nonempty digit string converts to the evident integer, anything else is
non-finite (`NaN`).  Float rounding/overflow of very long digit strings is
not modelled. -/
def jsNumber (s : String) : Option ℤ :=
  match s.toList with
  | [] => some 0
  | '-' :: rest =>
      if rest.length ≠ 0 ∧ rest.all Char.isDigit then some (-(jsIntOfDigits rest))
      else none
  | cs => if cs.all Char.isDigit then some (jsIntOfDigits cs) else none

/-- `parseNumericInput(value)`: empty string reports `empty`, a bare minus
reports `incomplete`, a non-finite `Number` conversion reports `invalid`,
otherwise the numeric value is returned. -/
def parseNumericInput (value : String) : AnswerParse :=
  if value = "" then .err .empty
  else if value = "-" then .err .incomplete
  else
    match jsNumber value with
    | none => .err .invalid
    | some n => .ok n

/-- `errors.empty` of the math provider. -/
def errorsEmpty : String := "Type an answer."

/-- `errors.emptyKeypad` of the math provider. -/
def errorsEmptyKeypad : String := "Tap numbers to continue."

/-- `errors.incomplete` of the math provider. -/
def errorsIncomplete : String := "Type a number."

/-- `errors.invalid` of the math provider. -/
def errorsInvalid : String := "Numbers only for now."

/-- The feedback record set by `applyResult`. -/
structure Feedback where
  correct : Bool
  expected : String
  ms : ℚ
  skill : SkillKey
  level : ℕ
  timedOut : Bool
deriving DecidableEq, Repr

/-- `SessionCounts`. -/
structure SessionCounts where
  correct : ℕ
  wrong : ℕ
deriving DecidableEq, Repr

/-- The drill-relevant React state of `useTrainingSession`. -/
structure DrillState where
  stats : Stats
  question : Option Question
  answer : String
  feedback : Option Feedback
  error : Option String
  session : SessionCounts
  answered : Bool

/-- Model of the JS string method `trim()` used on the typed answer: drop
whitespace characters from both ends. -/
def jsTrim (s : String) : String :=
  String.mk
    (((s.toList.dropWhile Char.isWhitespace).reverse.dropWhile
      Char.isWhitespace).reverse)

/-- `applyResult(correct, elapsed, timedOut)`: update the stats through the
provider, record feedback, bump the session counters, clear the error and
mark the question answered. -/
def applyResult (st : DrillState) (correct : Bool) (elapsed : ℚ)
    (timedOut : Bool) : DrillState :=
  match st.question with
  | none => st
  | some q =>
      { st with
        stats := updateStats st.stats q.skill correct elapsed
        feedback := some
          { correct := correct, expected := toString q.answer, ms := elapsed,
            skill := q.skill, level := q.level, timedOut := timedOut }
        session :=
          { correct := st.session.correct + (if correct then 1 else 0),
            wrong := st.session.wrong + (if correct then 0 else 1) }
        error := none
        answered := true }

/-- `handleSubmit(options)`: a no-op without a question or once answered;
otherwise sanitize and parse the trimmed answer, report a parse error
without touching anything else, or apply the graded result.  The elapsed
time (`Date.now() - startTimeRef`) is an explicit parameter. -/
def handleSubmit (st : DrillState) (settings : MathSettings)
    (useKeypad : Bool) (elapsed : ℚ) : DrillState :=
  match st.question with
  | none => st
  | some q =>
      if st.answered then st
      else
        let allowNegative := allowNegativeAnswer q settings
        let cleaned := sanitizeNumericInput (jsTrim st.answer) allowNegative
        match parseNumericInput cleaned with
        | .err .empty =>
            { st with error := some (if useKeypad then errorsEmptyKeypad else errorsEmpty) }
        | .err .incomplete => { st with error := some errorsIncomplete }
        | .err .invalid => { st with error := some errorsInvalid }
        | .ok v => applyResult st (v == q.answer) elapsed false

/-! ## Concrete instances used in witnesses and counterexamples -/

/-- The two-entry demonstration history of the spec: one correct answer in
1000 ms, then one wrong answer in 2000 ms. -/
def demoSkillStats : SkillStats :=
  { level := 1, streak := 0, mistakeStreak := 0,
    history := [{ correct := true, ms := 1000 }, { correct := false, ms := 2000 }] }

/-- A skill record with no history. -/
def emptySkillStats : SkillStats :=
  { level := 1, streak := 0, mistakeStreak := 0, history := [] }

/-- A whole training session as a list of `(skill, correct, elapsedMs)`
results applied from the default stats. -/
def applyResults (ops : List (SkillKey × Bool × ℚ)) : Stats :=
  ops.foldl (fun st op => updateStats st op.1 op.2.1 op.2.2) createDefaultStats

/-- Stats with every skill already at the maximum level and a 2-streak. -/
def maxLevelStats : Stats := fun _ =>
  { level := MAX_LEVEL, streak := 2, mistakeStreak := 0, history := [] }

/-- Stats with every skill at level 1 and one recorded mistake. -/
def floorStats : Stats := fun _ =>
  { level := 1, streak := 0, mistakeStreak := 1, history := [] }

/-- Stats with every skill at level 1 and a 2-streak. -/
def lowStats : Stats := fun _ =>
  { level := 1, streak := 2, mistakeStreak := 0, history := [] }

/-- Stats with every skill at level 5 and one recorded mistake. -/
def midStats : Stats := fun _ =>
  { level := 5, streak := 0, mistakeStreak := 1, history := [] }

/-- Position of a skill in the `SKILL_LIST` enumeration order. -/
def skillIdx : SkillKey → ℕ
  | .add => 0
  | .sub => 1
  | .mul => 2
  | .div => 3

/-- Stats whose division history is a single miss, making `div` the weakest
skill (score 0 against the 0.55 priors). -/
def divWeakStats : Stats := fun skill =>
  match skill with
  | .div => { level := 1, streak := 0, mistakeStreak := 1,
              history := [{ correct := false, ms := 1000 }] }
  | _ => { level := 1, streak := 0, mistakeStreak := 0, history := [] }

/-- The default math provider settings with negative answers disabled
(`negativeLevel = 0`). -/
def noNegSettings : MathSettings :=
  { questionCount := 10, timeLimitSeconds := 10, negativeLevel := 0 }

/-- A drill state awaiting an answer to a subtraction question, with the raw
input `"-"` typed. -/
def dashState : DrillState :=
  { stats := createDefaultStats
    question := some (generateQuestion .sub 1 none 5 3 "q1")
    answer := "-"
    feedback := none
    error := none
    session := { correct := 0, wrong := 0 }
    answered := false }

/-! ## Helper lemmas -/

/-- The `reduce` counting correct answers equals `countP`. -/
lemma foldl_count (l : List Result) :
    ∀ init : ℚ,
      l.foldl (fun total item => total + (if item.correct then 1 else 0)) init
        = init + ((l.countP (fun r => r.correct) : ℕ) : ℚ) := by
  induction l with
  | nil => intro init; simp
  | cons hd tl ih =>
      intro init
      rcases h : hd.correct with _ | _
      · simp [List.countP_cons, h, ih]
      · simp [List.countP_cons, h, ih]
        ring

/-- The `reduce` summing elapsed times equals the sum of the mapped list. -/
lemma foldl_sum (l : List Result) :
    ∀ init : ℚ,
      l.foldl (fun sum item => sum + item.ms) init
        = init + (l.map Result.ms).sum := by
  induction l with
  | nil => intro init; simp
  | cons hd tl ih => intro init; simp [ih]; ring

/-- Accuracy is a closed-form quotient of the correct count by the length. -/
lemma accuracyFromHistory_eq (h : List Result) (hne : h.length ≠ 0) :
    accuracyFromHistory h
      = ((h.countP (fun r => r.correct) : ℕ) : ℚ) / (h.length : ℚ) := by
  simp only [accuracyFromHistory, if_neg hne]
  rw [foldl_count]
  ring_nf

/-- Accuracy never exceeds 1. -/
lemma accuracyFromHistory_le_one (h : List Result) : accuracyFromHistory h ≤ 1 := by
  by_cases hne : h.length = 0
  · simp [accuracyFromHistory, hne]
  · rw [accuracyFromHistory_eq h hne]
    have hpos : (0 : ℚ) < (h.length : ℚ) := by
      exact_mod_cast Nat.pos_of_ne_zero hne
    rw [div_le_one hpos]
    exact_mod_cast List.countP_le_length _

/-- Each skill's score (accuracy or the 0.55 prior) is at most 1. -/
lemma skillScore_le_one (stats : Stats) (skill : SkillKey) :
    skillScore stats skill ≤ 1 := by
  unfold skillScore
  split_ifs
  · norm_num
  · exact accuracyFromHistory_le_one _

/-- Every level table has exactly `MAX_LEVEL` entries. -/
lemma levels_length (skill : SkillKey) : (LEVELS skill).length = MAX_LEVEL := by
  cases skill <;> decide

/-- `clampNat` lands in the requested interval. -/
lemma clampNat_mem (v lo hi : ℕ) (h : lo ≤ hi) :
    lo ≤ clampNat v lo hi ∧ clampNat v lo hi ≤ hi := by
  unfold clampNat
  omega

/-- Skills other than the updated one are untouched by `updateStats`. -/
lemma updateStats_frame (stats : Stats) (skill : SkillKey) (correct : Bool)
    (ms : ℚ) (k : SkillKey) (hk : k ≠ skill) :
    updateStats stats skill correct ms k = stats k := by
  simp [updateStats, hk]

/-- The updated skill's level is either unchanged, the clamped increment, or
the clamped decrement. -/
lemma updateStats_level_cases (stats : Stats) (skill : SkillKey)
    (correct : Bool) (ms : ℚ) :
    (updateStats stats skill correct ms skill).level = (stats skill).level
    ∨ (updateStats stats skill correct ms skill).level
        = clampNat ((stats skill).level + 1) 1 MAX_LEVEL
    ∨ (updateStats stats skill correct ms skill).level
        = clampNat ((stats skill).level - 1) 1 MAX_LEVEL := by
  simp only [updateStats, levels_length]
  split_ifs <;> simp

/-- `updateStats` keeps every skill's level within `[1, MAX_LEVEL]`. -/
lemma updateStats_level_bounds (stats : Stats) (skill : SkillKey)
    (correct : Bool) (ms : ℚ) (k : SkillKey)
    (h1 : 1 ≤ (stats k).level) (h2 : (stats k).level ≤ MAX_LEVEL) :
    1 ≤ (updateStats stats skill correct ms k).level
    ∧ (updateStats stats skill correct ms k).level ≤ MAX_LEVEL := by
  by_cases hk : k = skill
  · subst hk
    rcases updateStats_level_cases stats k correct ms with h | h | h <;> rw [h]
    · exact ⟨h1, h2⟩
    · exact clampNat_mem _ 1 MAX_LEVEL (by norm_num [MAX_LEVEL])
    · exact clampNat_mem _ 1 MAX_LEVEL (by norm_num [MAX_LEVEL])
  · rw [updateStats_frame stats skill correct ms k hk]
    exact ⟨h1, h2⟩

/-- Closed form of the `getWeakestSkill` fold: a cascade of strict
comparisons in enumeration order. -/
lemma getWeakestSkill_eq (stats : Stats) :
    getWeakestSkill stats =
      if skillScore stats .sub < skillScore stats .add then
        if skillScore stats .mul < skillScore stats .sub then
          if skillScore stats .div < skillScore stats .mul then .div else .mul
        else
          if skillScore stats .div < skillScore stats .sub then .div else .sub
      else
        if skillScore stats .mul < skillScore stats .add then
          if skillScore stats .div < skillScore stats .mul then .div else .mul
        else
          if skillScore stats .div < skillScore stats .add then .div else .add := by
  have hb : skillScore stats .add ≤ 1 := skillScore_le_one stats .add
  simp only [getWeakestSkill, SKILL_LIST, List.foldl_cons, List.foldl_nil,
    apply_ite Prod.snd, apply_ite Prod.fst]
  split_ifs <;> first | rfl | (exfalso; linarith)

/-! ## Claims -/

/-- C7: `getTargetMs level` equals `clamp(6000 - level*300, 2400, 6000)`, is
monotonically non-increasing in the level, and always lies in `[2400, 6000]`. -/
theorem c7_targetMs_clamped_monotone :
    (∀ level : ℕ, getTargetMs level = clampZ (6000 - (level : ℤ) * 300) 2400 6000)
    ∧ (∀ l1 l2 : ℕ, l1 ≤ l2 → getTargetMs l2 ≤ getTargetMs l1)
    ∧ (∀ level : ℕ, 2400 ≤ getTargetMs level ∧ getTargetMs level ≤ 6000) := by
  refine ⟨fun level => rfl, fun l1 l2 h => ?_, fun level => ?_⟩
  · have hc : (l1 : ℤ) ≤ (l2 : ℤ) := by exact_mod_cast h
    simp only [getTargetMs, clampZ]
    omega
  · simp only [getTargetMs, clampZ]
    omega

/-- Witness for C7: the monotonicity instance `getTargetMs 2 ≤ getTargetMs 1`. -/
theorem c7_witness : getTargetMs 2 ≤ getTargetMs 1 :=
  c7_targetMs_clamped_monotone.2.1 1 2 (by decide)

/-- C9: accuracy and average time are 0 on an empty history; on a non-empty
history they are the correct count over the length and the arithmetic mean of
the elapsed times; on `[correct(1000ms), wrong(2000ms)]` they are 0.5 and
1500. -/
theorem c9_accuracy_average :
    (∀ s : SkillStats, s.history = [] → getAccuracy s = 0 ∧ getAverageMs s = 0)
    ∧ (∀ s : SkillStats, s.history ≠ [] →
        getAccuracy s
          = ((s.history.countP (fun r => r.correct) : ℕ) : ℚ) / (s.history.length : ℚ)
        ∧ getAverageMs s = (s.history.map Result.ms).sum / (s.history.length : ℚ))
    ∧ getAccuracy demoSkillStats = 1/2
    ∧ getAverageMs demoSkillStats = 1500 := by
  refine ⟨fun s hs => ?_, fun s hs => ?_,
    by norm_num [getAccuracy, accuracyFromHistory, demoSkillStats, List.foldl],
    by norm_num [getAverageMs, demoSkillStats, List.foldl]⟩
  · simp [getAccuracy, getAverageMs, accuracyFromHistory, hs]
  · have hne : s.history.length ≠ 0 := fun h => hs (List.length_eq_zero.mp h)
    refine ⟨accuracyFromHistory_eq s.history hne, ?_⟩
    simp only [getAverageMs, if_neg hne]
    rw [foldl_sum]
    ring_nf

/-- Witness for C9: the empty-history clause applied to a concrete record. -/
theorem c9_witness : getAccuracy emptySkillStats = 0 :=
  (c9_accuracy_average.1 emptySkillStats rfl).1

/-- C10: `updateStats` leaves every skill other than the updated one exactly
as it was (the input record is never mutated: the embedding is a pure
function returning a new `Stats`). -/
theorem c10_frame :
    ∀ (stats : Stats) (skill : SkillKey) (correct : Bool) (ms : ℚ) (k : SkillKey),
      k ≠ skill → updateStats stats skill correct ms k = stats k := by
  intro stats skill correct ms k hk
  simp [updateStats, hk]

/-- Witness for C10: updating `add` leaves `sub` untouched on default stats. -/
theorem c10_witness :
    updateStats createDefaultStats .add true 0 .sub = createDefaultStats .sub :=
  c10_frame createDefaultStats .add true 0 .sub (by decide)

/-- C4: the updated skill's history is the last `MAX_HISTORY = 12` elements
of the old history with the new result appended: equivalently the surviving
tail of the old history followed by the new result (newest last, oldest
dropped first, order preserved), its length is capped at 12, and it is a
suffix of the appended history ending in the new result. -/
theorem c4_history_window :
    ∀ (stats : Stats) (skill : SkillKey) (correct : Bool) (ms : ℚ),
      (updateStats stats skill correct ms skill).history
        = ((stats skill).history ++ [({ correct := correct, ms := ms } : Result)]).drop
            (((stats skill).history ++ [({ correct := correct, ms := ms } : Result)]).length
              - MAX_HISTORY)
      ∧ (updateStats stats skill correct ms skill).history
        = (stats skill).history.drop ((stats skill).history.length + 1 - MAX_HISTORY)
            ++ [({ correct := correct, ms := ms } : Result)]
      ∧ (updateStats stats skill correct ms skill).history.length
        = min ((stats skill).history.length + 1) MAX_HISTORY
      ∧ (updateStats stats skill correct ms skill).history
          <:+ (stats skill).history ++ [({ correct := correct, ms := ms } : Result)]
      ∧ (updateStats stats skill correct ms skill).history.getLast?
        = some ({ correct := correct, ms := ms } : Result) := by
  intro stats skill correct ms
  have hbase : (updateStats stats skill correct ms skill).history
      = ((stats skill).history ++ [({ correct := correct, ms := ms } : Result)]).drop
          (((stats skill).history ++ [({ correct := correct, ms := ms } : Result)]).length
            - MAX_HISTORY) := by
    simp [updateStats]
  have hlen : ((stats skill).history ++ [({ correct := correct, ms := ms } : Result)]).length
      = (stats skill).history.length + 1 := by simp
  have hle : (stats skill).history.length + 1 - MAX_HISTORY
      ≤ (stats skill).history.length := by
    simp only [MAX_HISTORY]; omega
  have hsplit : (updateStats stats skill correct ms skill).history
      = (stats skill).history.drop ((stats skill).history.length + 1 - MAX_HISTORY)
          ++ [({ correct := correct, ms := ms } : Result)] := by
    rw [hbase, hlen, List.drop_append_of_le_length hle]
  refine ⟨hbase, hsplit, ?_, ?_, ?_⟩
  · rw [hbase, List.length_drop, hlen]
    simp only [MAX_HISTORY]
    omega
  · rw [hbase]
    exact List.drop_suffix _ _
  · rw [hsplit]
    simp

/-- C1 (counterexample): at the maximum level a fast third consecutive
correct answer satisfies every promotion hypothesis, yet the streak is not
reset to 0 — it becomes 3, because the source only zeroes the streak when
the level actually changes (`leveledUp`). -/
theorem c1_cex :
    3 ≤ (maxLevelStats .add).streak + 1
    ∧ (0 : ℚ) ≤ ((getTargetMs (maxLevelStats .add).level : ℤ) : ℚ)
    ∧ (updateStats maxLevelStats .add true 0 .add).streak ≠ 0 := by
  decide

/-- C1 (amended): for a correct result with incremented streak at least 3 and
elapsed time within the target of the level before the update, `updateStats`
sets the level to `clamp(level + 1, 1, MAX_LEVEL)`; the streak resets to 0
exactly when the level actually changes, and at a level already at the
maximum the level stays put and the streak becomes `streak + 1` instead. -/
theorem c1_promotion :
    ∀ (stats : Stats) (skill : SkillKey) (ms : ℚ),
      3 ≤ (stats skill).streak + 1 →
      ms ≤ ((getTargetMs (stats skill).level : ℤ) : ℚ) →
      (updateStats stats skill true ms skill).level
        = clampNat ((stats skill).level + 1) 1 MAX_LEVEL
      ∧ ((updateStats stats skill true ms skill).level ≠ (stats skill).level →
          (updateStats stats skill true ms skill).streak = 0)
      ∧ ((updateStats stats skill true ms skill).level = (stats skill).level →
          (updateStats stats skill true ms skill).streak = (stats skill).streak + 1) := by
  intro stats skill ms h1 h2
  have hlvl : (updateStats stats skill true ms skill).level
      = clampNat ((stats skill).level + 1) 1 MAX_LEVEL := by
    simp [updateStats, h1, h2, levels_length]
  refine ⟨hlvl, fun hne => ?_, fun heq => ?_⟩
  · rw [hlvl] at hne
    simp [updateStats, h1, h2, levels_length, hne]
  · rw [hlvl] at heq
    simp [updateStats, h1, h2, levels_length, heq]

/-- Witness for C1: a fast third correct answer at level 1 promotes and
resets the streak. -/
theorem c1_witness : (updateStats lowStats .add true 0 .add).streak = 0 := by
  have h := c1_promotion lowStats .add 0 (by decide) (by decide)
  exact h.2.1 (by rw [h.1]; decide)

/-- C2 (counterexample): at level 1 a second consecutive miss satisfies the
demotion hypothesis, yet the mistake streak is not reset to 0 — it becomes 2,
because the source only zeroes it when the level actually changes
(`leveledDown`). -/
theorem c2_cex :
    2 ≤ (floorStats .add).mistakeStreak + 1
    ∧ (updateStats floorStats .add false 0 .add).mistakeStreak ≠ 0 := by
  decide

/-- C2 (amended): for an incorrect result with incremented mistake streak at
least 2, `updateStats` sets the level to `clamp(level - 1, 1, MAX_LEVEL)`;
the mistake streak resets to 0 exactly when the level actually changes, and
at level 1 the level stays put and the mistake streak becomes
`mistakeStreak + 1` instead.  A single miss (incremented mistake streak 1)
never changes the level. -/
theorem c2_demotion :
    ∀ (stats : Stats) (skill : SkillKey) (ms : ℚ),
      (2 ≤ (stats skill).mistakeStreak + 1 →
        (updateStats stats skill false ms skill).level
          = clampNat ((stats skill).level - 1) 1 MAX_LEVEL
        ∧ ((updateStats stats skill false ms skill).level ≠ (stats skill).level →
            (updateStats stats skill false ms skill).mistakeStreak = 0)
        ∧ ((updateStats stats skill false ms skill).level = (stats skill).level →
            (updateStats stats skill false ms skill).mistakeStreak
              = (stats skill).mistakeStreak + 1))
      ∧ ((stats skill).mistakeStreak = 0 →
          (updateStats stats skill false ms skill).level = (stats skill).level) := by
  intro stats skill ms
  constructor
  · intro hm
    have hlvl : (updateStats stats skill false ms skill).level
        = clampNat ((stats skill).level - 1) 1 MAX_LEVEL := by
      simp [updateStats, hm, levels_length]
    refine ⟨hlvl, fun hne => ?_, fun heq => ?_⟩
    · rw [hlvl] at hne
      simp [updateStats, hm, levels_length, hne]
    · rw [hlvl] at heq
      simp [updateStats, hm, levels_length, heq]
  · intro hm0
    simp [updateStats, hm0, levels_length]

/-- Witness for C2: a second consecutive miss at level 5 demotes and resets
the mistake streak. -/
theorem c2_witness : (updateStats midStats .add false 0 .add).mistakeStreak = 0 := by
  have h := (c2_demotion midStats .add 0).1 (by decide)
  exact h.2.1 (by rw [h.1]; decide)

/-- C3: `updateStats` keeps any in-range level in `[1, MAX_LEVEL]`, and
starting from the default stats every sequence of results leaves every
skill's level in `[1, MAX_LEVEL]`. -/
theorem c3_level_invariant :
    (∀ (stats : Stats) (skill : SkillKey) (correct : Bool) (ms : ℚ) (k : SkillKey),
        1 ≤ (stats k).level → (stats k).level ≤ MAX_LEVEL →
        1 ≤ (updateStats stats skill correct ms k).level
        ∧ (updateStats stats skill correct ms k).level ≤ MAX_LEVEL)
    ∧ (∀ (ops : List (SkillKey × Bool × ℚ)) (k : SkillKey),
        1 ≤ (applyResults ops k).level ∧ (applyResults ops k).level ≤ MAX_LEVEL) := by
  refine ⟨fun stats skill correct ms k h1 h2 =>
    updateStats_level_bounds stats skill correct ms k h1 h2, fun ops k => ?_⟩
  have main : ∀ (l : List (SkillKey × Bool × ℚ)) (st : Stats),
      (∀ j, 1 ≤ (st j).level ∧ (st j).level ≤ MAX_LEVEL) →
      ∀ j, 1 ≤ ((l.foldl (fun st op => updateStats st op.1 op.2.1 op.2.2) st) j).level
        ∧ ((l.foldl (fun st op => updateStats st op.1 op.2.1 op.2.2) st) j).level
            ≤ MAX_LEVEL := by
    intro l
    induction l with
    | nil => intro st h j; simpa using h j
    | cons hd tl ih =>
        intro st h j
        simp only [List.foldl_cons]
        exact ih _ (fun j2 =>
          updateStats_level_bounds st hd.1 hd.2.1 hd.2.2 j2 (h j2).1 (h j2).2) j
  exact main ops createDefaultStats
    (fun j => by cases j <;> simp [createDefaultStats, MAX_LEVEL]) k

/-- Witness for C3: one update of the default stats stays in range. -/
theorem c3_witness :
    1 ≤ (updateStats createDefaultStats .add true 0 .add).level
    ∧ (updateStats createDefaultStats .add true 0 .add).level ≤ MAX_LEVEL :=
  c3_level_invariant.1 createDefaultStats .add true 0 .add (by decide) (by decide)

/-- C6: for operands within the level's ranges, division questions have
divisor `max(1, a)` (never zero), answer equal to the drawn quotient `b`,
displayed text built from the dividend `max(1, a) * b`, and the dividend
divides by the divisor exactly, with zero remainder. -/
theorem c6_division_exact :
    ∀ (level : ℕ) (options : Option Bool) (a b : ℕ) (id : String),
      (getLevelSpec .div level).minA.getD 0 ≤ a →
      a ≤ (getLevelSpec .div level).maxA →
      (getLevelSpec .div level).minB.getD 0 ≤ b →
      b ≤ (getLevelSpec .div level).maxB →
      (generateQuestion .div level options a b id).answer = (b : ℤ)
      ∧ max 1 a ≠ 0
      ∧ (generateQuestion .div level options a b id).text
          = s!"{max 1 a * b} / {max 1 a}"
      ∧ (max 1 a * b) / (max 1 a) = b
      ∧ (max 1 a * b) % (max 1 a) = 0 := by
  intro level options a b id h1 h2 h3 h4
  have hpos : 0 < max 1 a := by omega
  exact ⟨rfl, by omega, rfl, Nat.mul_div_cancel_left b hpos, Nat.mul_mod_right _ _⟩

/-- Witness for C6: level 1 with draws a = 3, b = 4. -/
theorem c6_witness :
    (generateQuestion .div 1 none 3 4 "q").answer = ((4 : ℕ) : ℤ) :=
  (c6_division_exact 1 none 3 4 "q" (by decide) (by decide) (by decide)
    (by decide)).1

/-- C8: `getWeakestSkill` scores each skill by history accuracy (0.55 prior
on an empty history), returns a skill of minimum score, and breaks ties by
enumeration order: every skill listed strictly before the winner has a
strictly larger score. -/
theorem c8_weakest_skill :
    ∀ stats : Stats,
      (∀ sk, skillScore stats sk
          = if (stats sk).history = [] then 0.55 else getAccuracy (stats sk))
      ∧ (∀ sk, skillScore stats (getWeakestSkill stats) ≤ skillScore stats sk)
      ∧ (∀ sk, skillIdx sk < skillIdx (getWeakestSkill stats) →
          skillScore stats (getWeakestSkill stats) < skillScore stats sk) := by
  intro stats
  have hw := getWeakestSkill_eq stats
  refine ⟨fun sk => by simp [skillScore, getAccuracy, List.length_eq_zero],
    fun sk => ?_, fun sk hidx => ?_⟩
  · rw [hw]
    split_ifs <;> cases sk <;> linarith
  · rw [hw] at hidx ⊢
    split_ifs at hidx ⊢ <;> cases sk <;>
      simp only [skillIdx] at hidx <;> first | omega | linarith

/-- Witness for C8: with a lone miss recorded for division, the weakest skill
scores strictly below `add`, which is listed before it. -/
theorem c8_witness :
    skillScore divWeakStats (getWeakestSkill divWeakStats)
      < skillScore divWeakStats .add := by
  have hdiv : getWeakestSkill divWeakStats = SkillKey.div := by
    rw [getWeakestSkill_eq]
    norm_num [skillScore, accuracyFromHistory, divWeakStats]
  exact (c8_weakest_skill divWeakStats).2.2 SkillKey.add (by rw [hdiv]; decide)

/-- C5 (counterexample): sanitizing the raw input `"-"` with negatives
disabled yields the empty string, so parsing reports the `empty` failure
mode, not `invalid` as the claim states. -/
theorem c5_cex :
    parseNumericInput (sanitizeNumericInput "-" false)
      = AnswerParse.err ParseErrorKind.empty
    ∧ parseNumericInput (sanitizeNumericInput "-" false)
        ≠ AnswerParse.err ParseErrorKind.invalid := by
  decide

/-- C5 (amended): submitting the raw input `"-"` while negative answers are
disabled is rejected as an `empty` input: sanitizing strips the minus sign
and parsing the resulting empty string reports the `empty` failure mode with
its distinct user-facing message, and the rejected submission leaves the
drill state unchanged apart from that message — `answered` remains false, no
result is applied to the stats, and the session counts are untouched. -/
theorem c5_dash_rejected_empty :
    ∀ (st : DrillState) (settings : MathSettings) (q : Question)
      (useKeypad : Bool) (elapsed : ℚ),
      st.question = some q → st.answered = false → st.answer = "-" →
      settings.negativeLevel = 0 →
      parseNumericInput
          (sanitizeNumericInput (jsTrim st.answer) (allowNegativeAnswer q settings))
        = AnswerParse.err ParseErrorKind.empty
      ∧ handleSubmit st settings useKeypad elapsed
        = { st with
            error := some (if useKeypad then errorsEmptyKeypad else errorsEmpty) }
      ∧ (handleSubmit st settings useKeypad elapsed).answered = false
      ∧ (handleSubmit st settings useKeypad elapsed).stats = st.stats
      ∧ (handleSubmit st settings useKeypad elapsed).session = st.session := by
  intro st settings q useKeypad elapsed hq ha hans hneg
  have hallow : allowNegativeAnswer q settings = false := by
    simp [allowNegativeAnswer, hneg]
  have hparse : parseNumericInput
      (sanitizeNumericInput (jsTrim st.answer) (allowNegativeAnswer q settings))
      = AnswerParse.err ParseErrorKind.empty := by
    rw [hans, hallow]
    decide
  have hsub : handleSubmit st settings useKeypad elapsed
      = { st with
          error := some (if useKeypad then errorsEmptyKeypad else errorsEmpty) } := by
    unfold handleSubmit
    simp only [hq, ha, Bool.false_eq_true, if_false, hparse]
  refine ⟨hparse, hsub, ?_, ?_, ?_⟩
  · rw [hsub]
    exact ha
  · rw [hsub]
  · rw [hsub]

/-- Witness for C5: the concrete dash-typed drill state stays unanswered. -/
theorem c5_witness :
    (handleSubmit dashState noNegSettings false 0).answered = false := by
  have h := c5_dash_rejected_empty dashState noNegSettings
    (generateQuestion .sub 1 none 5 3 "q1") false 0 rfl rfl rfl rfl
  exact h.2.2.1

end MathDrill
